import Mathlib

/-!
Verification of the connection-orchestration layer of Ae.Chat
(src/Frontend/src: Broker.ts, PeerConnector.ts, ConnectionManager.ts).

The TypeScript classes are embedded shallowly: each class instance becomes a
Lean structure holding its mutable fields together with the observable state
of the underlying RTCPeerConnection capability (local/remote description,
candidates applied so far, closed flag), and each method becomes a pure
function from state to state, paired with the list of callback emissions
(events) the method performs, in order.
-/

/-- ICE candidates are opaque payloads exchanged over the relay. -/
def Candidate : Type := String

deriving instance DecidableEq for Candidate

/-- Session descriptions (SDP offers/answers) are opaque payloads. -/
def Description : Type := String

deriving instance DecidableEq for Description

/-- Media tracks are opaque; a MediaStream is its list of tracks. -/
def Track : Type := String

deriving instance DecidableEq for Track

/-- Dimension of a connection-state change, from PeerConnector.ts
`ConnectionChangeType` (Ice = iceConnectionState, RTC = connectionState,
i.e. the spec's "Overall", Signal = signalingState). -/
inductive ConnectionChangeType
  | Ice
  | RTC
  | Signal
deriving DecidableEq

/-- From PeerConnector.ts `ConnectionChange`: a dimension tag plus the
state label reported by the capability. -/
structure ConnectionChange where
  «Type» : ConnectionChangeType
  State : String
deriving DecidableEq

/-- State of one PeerConnector instance (PeerConnector.ts):
its fields `shouldOffer`, `localCandidates`, `remoteCandidates`,
`rtpSenders`, plus the observable state of its RTCPeerConnection
(`localDescription`, `remoteDescription`, the candidates successfully
applied via addIceCandidate in order, and whether close() was called).
A sender's entry is the track it currently carries; removeTrack nulls it. -/
structure PeerConnectorState where
  shouldOffer : Bool
  localCandidates : List Candidate
  remoteCandidates : List Candidate
  rtpSenders : List (Option Track)
  localDescription : Option Description
  remoteDescription : Option Description
  appliedRemoteCandidates : List Candidate
  closed : Bool
deriving DecidableEq

/-- Callback emissions a PeerConnector can perform (its output delegates
OnHasIceCandidates, OnHasOffer, OnAcceptedOffer). -/
inductive PCEvent
  | HasIceCandidates (candidates : List Candidate)
  | HasOffer (offer : Description)
  | AcceptedOffer (offer : Description)
deriving DecidableEq

/-- The negotiation roles of the spec's data model. -/
inductive Role
  | Offerer
  | Answerer
deriving DecidableEq

/-- The connector that originates the offer is the Offerer.  In
PeerConnector.ts the role is encoded by the `shouldOffer` flag: the
onnegotiationneeded handler suppresses offer creation exactly when
`shouldOffer` is false (and no description exists yet), so a connector
with `shouldOffer = true` is the side that sends a description first. -/
def roleOf (shouldOffer : Bool) : Role :=
  if shouldOffer then Role.Offerer else Role.Answerer

namespace PeerConnector

/-- A freshly constructed PeerConnector (PeerConnector.ts constructor):
empty buffers, no senders, fresh RTCPeerConnection (no descriptions,
nothing applied, not closed). -/
def new (shouldOffer : Bool) : PeerConnectorState :=
  { shouldOffer := shouldOffer
    localCandidates := []
    remoteCandidates := []
    rtpSenders := []
    localDescription := none
    remoteDescription := none
    appliedRemoteCandidates := []
    closed := false }

/-- Capability operation RTCPeerConnection.addIceCandidate: succeeds and
records the candidate when a remote description is present, throws
(InvalidStateError) when it is absent. -/
def addIceCandidate (s : PeerConnectorState) (c : Candidate) :
    Except Unit PeerConnectorState :=
  if s.remoteDescription.isSome then
    Except.ok { s with appliedRemoteCandidates := s.appliedRemoteCandidates ++ [c] }
  else
    Except.error ()

/-- The per-candidate body of AddRemoteCandidates (lines 120-127): try
addIceCandidate; the catch block pushes the candidate onto
`remoteCandidates` instead. -/
def addRemoteStep (st : PeerConnectorState) (c : Candidate) : PeerConnectorState :=
  match addIceCandidate st c with
  | Except.ok st' => st'
  | Except.error _ => { st with remoteCandidates := st.remoteCandidates ++ [c] }

/-- From PeerConnector.ts lines 119-128 (AddRemoteCandidates): each
candidate is applied via addIceCandidate; on failure it is buffered.
No exception escapes to the caller (the function is total). -/
def AddRemoteCandidates (s : PeerConnectorState) (cs : List Candidate) :
    PeerConnectorState :=
  cs.foldl addRemoteStep s

/-- One step of the buffer flush inside AcceptOffer (lines 141-143):
addIceCandidate with no catch block, so a failing application is lost
(unhandled rejection) and the loop continues. -/
def applyOrDrop (s : PeerConnectorState) (c : Candidate) : PeerConnectorState :=
  match addIceCandidate s c with
  | Except.ok s' => s'
  | Except.error _ => s

/-- From PeerConnector.ts lines 135-147 (AcceptOffer): apply the offer as
remote description, synthesize and apply a local answer (the capability's
createAnswer result is the `answer` parameter), apply every buffered
remote candidate in receipt order, clear the buffer, then emit
OnAcceptedOffer with the local description. -/
def AcceptOffer (s : PeerConnectorState) (offer answer : Description) :
    PeerConnectorState × List PCEvent :=
  let s1 := { s with remoteDescription := some offer, localDescription := some answer }
  let s2 := s1.remoteCandidates.foldl applyOrDrop s1
  ({ s2 with remoteCandidates := [] }, [PCEvent.AcceptedOffer answer])

/-- From PeerConnector.ts lines 130-133 (AcceptAnswer): apply the answer
as remote description. -/
def AcceptAnswer (s : PeerConnectorState) (answer : Description) :
    PeerConnectorState :=
  { s with remoteDescription := some answer }

/-- From PeerConnector.ts lines 81-89 (onicecandidate handler): a
discovered candidate (some c) is pushed onto `localCandidates`; the
end-of-gathering signal (event.candidate == null) emits
OnHasIceCandidates with the whole buffer and resets it to a new empty
array. -/
def onicecandidate (s : PeerConnectorState) (c : Option Candidate) :
    PeerConnectorState × List PCEvent :=
  match c with
  | none => ({ s with localCandidates := [] },
             [PCEvent.HasIceCandidates s.localCandidates])
  | some cand => ({ s with localCandidates := s.localCandidates ++ [cand] }, [])

/-- Runs a sequence of onicecandidate events, accumulating emissions in
order. -/
def processIceEvents (s : PeerConnectorState) :
    List (Option Candidate) → PeerConnectorState × List PCEvent
  | [] => (s, [])
  | e :: rest =>
    let r := onicecandidate s e
    let r2 := processIceEvents r.1 rest
    (r2.1, r.2 ++ r2.2)

/-- From PeerConnector.ts lines 91-104 (onnegotiationneeded handler): if
`shouldOffer` is false and neither description has been set, return
without offering.  Otherwise setLocalDescription creates and applies an
offer; `result` is the description the capability produces (none models
the caught setLocalDescription failure, which is only logged). -/
def onnegotiationneeded (s : PeerConnectorState) (result : Option Description) :
    PeerConnectorState × List PCEvent :=
  if !s.shouldOffer && s.localDescription.isNone && s.remoteDescription.isNone then
    (s, [])
  else
    match result with
    | some offer => ({ s with localDescription := some offer }, [PCEvent.HasOffer offer])
    | none => (s, [])

/-- From PeerConnector.ts lines 160-166 (StopLocalStream): removeTrack is
called on every recorded sender, nulling its track.  The final
`this.rtpSenders.slice(...)` computes a copy and discards it, so the
senders array itself is not shrunk. -/
def StopLocalStream (s : PeerConnectorState) : PeerConnectorState :=
  { s with rtpSenders := s.rtpSenders.map (fun _ => none) }

/-- From PeerConnector.ts lines 151-158 (StartLocalStream): stop the
current local stream, then addTrack every track of the new stream,
recording the new senders. -/
def StartLocalStream (s : PeerConnectorState) (stream : List Track) :
    PeerConnectorState :=
  let s1 := StopLocalStream s
  { s1 with rtpSenders := s1.rtpSenders ++ stream.map some }

/-- The set of outbound tracks currently attached to the connection: the
non-null tracks of the recorded senders. -/
def attachedTracks (s : PeerConnectorState) : List Track :=
  s.rtpSenders.filterMap id

/-- From PeerConnector.ts lines 111-113 (Shutdown): close the underlying
RTCPeerConnection. -/
def Shutdown (s : PeerConnectorState) : PeerConnectorState :=
  { s with closed := true }

/-- StartLocalStream as invoked on a possibly-closed connection:
removeTrack/addTrack throw InvalidStateError once close() has been
called, and PeerConnector.ts does not catch this.  The throwing calls
are made only inside the two forEach loops, so they occur exactly when
there is a recorded sender to remove or a track of the new stream to
add; a closed connection with no recorded senders and a track-less
stream completes without throwing. -/
def StartLocalStreamE (s : PeerConnectorState) (stream : List Track) :
    Except Unit PeerConnectorState :=
  if s.closed && (!s.rtpSenders.isEmpty || !stream.isEmpty) then Except.error ()
  else Except.ok (StartLocalStream s stream)

end PeerConnector

/-- From ConnectionManager.ts `ClientLocation`: opaque payload of five
strings, decoded from a `location` envelope. -/
structure ClientLocation where
  CityName : String
  CountryName : String
  CountryCode : String
  ContinentName : String
  SubdivisionName : String
deriving DecidableEq

/-- Shape of an envelope's Data field, determined by its Type tag:
a description for offer/accept, a candidate array for candidates, a
location record for location, and the empty object for discover and
acknowledge. -/
inductive Payload
  | empty
  | desc (d : Description)
  | candidates (cs : List Candidate)
  | location (loc : ClientLocation)
deriving DecidableEq

/-- From Broker.ts lines 7-12 (Envelope): the inbound message record has
exactly the fields RoomId, FromId, Type, Data — there is no ToId field. -/
structure Envelope where
  RoomId : String
  FromId : String
  «Type» : String
  Data : Payload
deriving DecidableEq

/-- Effects the ConnectionManager performs besides registry updates:
broker sends (payload, type, toId), the upward notifications
OnConnectionChanged and OnLocation, and Shutdown calls on connectors. -/
inductive ManagerEffect
  | Send (payload : Payload) (msgType : String) (toId : String)
  | NotifyConnectionChanged (clientId : String) (change : ConnectionChange)
  | NotifyLocation (clientId : String) (loc : ClientLocation)
  | ShutdownConnector (clientId : String)
deriving DecidableEq

/-- State of the ConnectionManager: the local AttendeeId (from its
SessionConfig) and the registry of connectors keyed by remote id, in
insertion order. -/
structure ConnectionManagerState where
  AttendeeId : String
  connectors : List (String × PeerConnectorState)
deriving DecidableEq

namespace ConnectionManager

/-- Registry lookup, `this.connectors[fromId]` /
`this.connectors.hasOwnProperty(fromId)`. -/
def lookupConnector (fromId : String) :
    List (String × PeerConnectorState) → Option PeerConnectorState
  | [] => none
  | p :: rest => if p.1 = fromId then some p.2 else lookupConnector fromId rest

/-- Replaces the entry for an existing key (the in-place mutation of the
connector object a dispatch performs). -/
def setConnector (fromId : String) (c : PeerConnectorState)
    (cs : List (String × PeerConnectorState)) :
    List (String × PeerConnectorState) :=
  cs.map (fun p => if p.1 = fromId then (fromId, c) else p)

/-- Registry removal, `delete this.connectors[fromId]`. -/
def deleteConnector (fromId : String)
    (cs : List (String × PeerConnectorState)) :
    List (String × PeerConnectorState) :=
  cs.filter (fun p => p.1 ≠ fromId)

/-- The string identity order used for the role tie-break: Lean core's
lexicographic order on strings (character code order), matching the
TypeScript `<` on strings. -/
def identLt (a b : String) : Prop :=
  @LT.lt String String.instLT a b

instance (a b : String) : Decidable (ConnectionManager.identLt a b) :=
  String.decLt a b

/-- From ConnectionManager.ts lines 63 and 65: the role flag computed
when a connector is created for `fromId` — offer exactly when the remote
id precedes the local AttendeeId in the string order. -/
def shouldOfferFor (fromId attendeeId : String) : Bool :=
  identLt fromId attendeeId

/-- From ConnectionManager.ts lines 58-97 (CreateConnector): if a
connector for `fromId` already exists, do nothing; otherwise construct
one via the factory with `shouldOffer = fromId < AttendeeId`, wire its
callbacks, start the current local stream on it, and register it. -/
def CreateConnector (m : ConnectionManagerState) (fromId : String)
    (localStream : List Track) : ConnectionManagerState :=
  if (lookupConnector fromId m.connectors).isSome then m
  else
    let c := PeerConnector.StartLocalStream
      (PeerConnector.new (shouldOfferFor fromId m.AttendeeId)) localStream
    { m with connectors := m.connectors ++ [(fromId, c)] }

/-- From ConnectionManager.ts lines 68-77: the OnConnectionChanged
callback wired to each connector.  The change is forwarded upward with
the connector's remote id; then, if the reported state is "failed" —
whatever its dimension — the connector is shut down and its registry
entry deleted. -/
def handleConnectionChange (m : ConnectionManagerState) (fromId : String)
    (change : ConnectionChange) :
    ConnectionManagerState × List ManagerEffect :=
  if change.State = "failed" then
    ({ m with connectors := deleteConnector fromId m.connectors },
     [ManagerEffect.NotifyConnectionChanged fromId change,
      ManagerEffect.ShutdownConnector fromId])
  else
    (m, [ManagerEffect.NotifyConnectionChanged fromId change])

/-- From ConnectionManager.ts lines 99-127 (OnMessage): self-echoes are
dropped; otherwise a connector for the sender is ensured and the message
is dispatched on its Type tag (the five tags are mutually exclusive, so
the chain of independent `if`s is a dispatch).  `answer` is the
description the capability's createAnswer produces on the offer path;
`localStream` is the OnNeedLocalStream result used when a connector is
created.  A Data payload whose shape does not match the Type tag is
outside the modelled behaviour and leaves the state unchanged. -/
def OnMessage (m : ConnectionManagerState) (env : Envelope)
    (answer : Description) (localStream : List Track) :
    ConnectionManagerState × List ManagerEffect :=
  if env.FromId = m.AttendeeId then (m, [])
  else
    let m1 := CreateConnector m env.FromId localStream
    if env.«Type» = "offer" then
      match env.Data, lookupConnector env.FromId m1.connectors with
      | Payload.desc offer, some c =>
        let r := PeerConnector.AcceptOffer c offer answer
        ({ m1 with connectors := setConnector env.FromId r.1 m1.connectors },
         [ManagerEffect.Send (Payload.desc answer) "accept" env.FromId])
      | _, _ => (m1, [])
    else if env.«Type» = "accept" then
      match env.Data, lookupConnector env.FromId m1.connectors with
      | Payload.desc d, some c =>
        ({ m1 with connectors :=
            setConnector env.FromId (PeerConnector.AcceptAnswer c d) m1.connectors }, [])
      | _, _ => (m1, [])
    else if env.«Type» = "candidates" then
      match env.Data, lookupConnector env.FromId m1.connectors with
      | Payload.candidates cs, some c =>
        ({ m1 with connectors :=
            setConnector env.FromId (PeerConnector.AddRemoteCandidates c cs) m1.connectors }, [])
      | _, _ => (m1, [])
    else if env.«Type» = "location" then
      match env.Data with
      | Payload.location loc => (m1, [ManagerEffect.NotifyLocation env.FromId loc])
      | _ => (m1, [])
    else if env.«Type» = "discover" then
      (m1, [ManagerEffect.Send Payload.empty "acknowledge" env.FromId])
    else
      (m1, [])

/-- The loop body of RefreshLocalStream (ConnectionManager.ts lines
51-55): StartLocalStream on each registered connector in registry order.
Returns the ids on which StartLocalStream was invoked, and either the
updated registry or the exception that escaped the loop (the loop has no
try/catch, so a throwing StartLocalStream aborts it). -/
def refreshConnectors (stream : List Track) :
    List (String × PeerConnectorState) →
    List String × Except Unit (List (String × PeerConnectorState))
  | [] => ([], Except.ok [])
  | (clientId, c) :: rest =>
    match PeerConnector.StartLocalStreamE c stream with
    | Except.error e => ([clientId], Except.error e)
    | Except.ok c' =>
      let r := refreshConnectors stream rest
      (clientId :: r.1, r.2.map (fun rest' => (clientId, c') :: rest'))

/-- From ConnectionManager.ts lines 48-56 (RefreshLocalStream): fetch the
current local stream (the `stream` parameter is the OnNeedLocalStream
result) and start it on every registered connector. -/
def RefreshLocalStream (m : ConnectionManagerState) (stream : List Track) :
    List String × Except Unit ConnectionManagerState :=
  let r := refreshConnectors stream m.connectors
  (r.1, r.2.map (fun cs => { m with connectors := cs }))

end ConnectionManager

/-! ## Theorems -/

theorem processIceEvents_push (cs : List Candidate) (s : PeerConnectorState) :
    PeerConnector.processIceEvents s (cs.map Option.some) =
      ({ s with localCandidates := s.localCandidates ++ cs }, []) := by
  induction cs generalizing s with
  | nil => simp [PeerConnector.processIceEvents]
  | cons c cs ih =>
    simp [PeerConnector.processIceEvents, PeerConnector.onicecandidate, ih]

/-- Claim C5: every gathered candidate is appended to the local candidate
buffer in discovery order; the end-of-gathering signal (a null candidate)
causes exactly one OnHasIceCandidates emission carrying the whole
accumulated batch, and the buffer is empty immediately afterwards. -/
theorem claim_C5 (s : PeerConnectorState) (cs : List Candidate) :
    PeerConnector.processIceEvents s (cs.map Option.some ++ [none]) =
      ({ s with localCandidates := [] },
       [PCEvent.HasIceCandidates (s.localCandidates ++ cs)]) := by
  induction cs generalizing s with
  | nil => simp [PeerConnector.processIceEvents, PeerConnector.onicecandidate]
  | cons c cs ih =>
    simp [PeerConnector.processIceEvents, PeerConnector.onicecandidate, ih]

/-- Claim C6: a connector whose role is Answerer never creates or emits
an offer from the negotiation-needed trigger while neither a local nor a
remote description has ever been set: the trigger leaves the state
unchanged and emits nothing, whatever the capability would have
returned. -/
theorem claim_C6 (s : PeerConnectorState) (result : Option Description)
    (hrole : roleOf s.shouldOffer = Role.Answerer)
    (hl : s.localDescription = none) (hr : s.remoteDescription = none) :
    PeerConnector.onnegotiationneeded s result = (s, []) := by
  have hso : s.shouldOffer = false := by
    cases h : s.shouldOffer
    · rfl
    · simp [roleOf, h] at hrole
  simp [PeerConnector.onnegotiationneeded, hso, hl, hr]

theorem claim_C6_witness :
    roleOf (PeerConnector.new false).shouldOffer = Role.Answerer ∧
    PeerConnector.onnegotiationneeded (PeerConnector.new false) (some "o") =
      (PeerConnector.new false, []) :=
  ⟨rfl, claim_C6 (PeerConnector.new false) (some "o") rfl rfl rfl⟩

/-- Claim C9: an envelope whose FromId equals the local AttendeeId is
dropped with no effect: the registry is unchanged, no connector is
created, nothing is sent, and no notification is emitted. -/
theorem claim_C9 (m : ConnectionManagerState) (env : Envelope)
    (answer : Description) (localStream : List Track)
    (h : env.FromId = m.AttendeeId) :
    ConnectionManager.OnMessage m env answer localStream = (m, []) := by
  simp [ConnectionManager.OnMessage, h]

theorem claim_C9_witness :
    ConnectionManager.OnMessage ⟨"100", []⟩ ⟨"room", "100", "discover", Payload.empty⟩
      "ans" [] = (⟨"100", []⟩, []) :=
  claim_C9 ⟨"100", []⟩ ⟨"room", "100", "discover", Payload.empty⟩ "ans" [] rfl

/-- Claim C10: envelope handling performs no room filtering (and the
Envelope type carries no ToId field): two envelopes differing only in
their RoomId produce identical registry updates, sends and
notifications. -/
theorem claim_C10 (m : ConnectionManagerState) (env : Envelope) (r : String)
    (answer : Description) (localStream : List Track) :
    ConnectionManager.OnMessage m { env with RoomId := r } answer localStream =
      ConnectionManager.OnMessage m env answer localStream := by
  obtain ⟨ro, f, t, d⟩ := env
  rfl

/-- Claim C2: for two distinct identities the role computed independently
on each side (each comparing the other against its own local id) yields
exactly one Offerer and one Answerer. -/
theorem claim_C2 (a b : String) (hne : a ≠ b) :
    (roleOf (ConnectionManager.shouldOfferFor b a) = Role.Offerer ∧
     roleOf (ConnectionManager.shouldOfferFor a b) = Role.Answerer) ∨
    (roleOf (ConnectionManager.shouldOfferFor b a) = Role.Answerer ∧
     roleOf (ConnectionManager.shouldOfferFor a b) = Role.Offerer) := by
  by_cases h : ConnectionManager.identLt b a
  · have hna : ¬ ConnectionManager.identLt a b := fun h' =>
      String.lt_irrefl a (String.lt_trans h' h)
    exact Or.inl ⟨by simp [ConnectionManager.shouldOfferFor, roleOf, h],
      by simp [ConnectionManager.shouldOfferFor, roleOf, hna]⟩
  · by_cases h' : ConnectionManager.identLt a b
    · exact Or.inr ⟨by simp [ConnectionManager.shouldOfferFor, roleOf, h],
        by simp [ConnectionManager.shouldOfferFor, roleOf, h']⟩
    · exact absurd (String.lt_antisymm h' h) hne

theorem claim_C2_witness :
    ("100" : String) ≠ "200" ∧
    ((roleOf (ConnectionManager.shouldOfferFor "200" "100") = Role.Offerer ∧
      roleOf (ConnectionManager.shouldOfferFor "100" "200") = Role.Answerer) ∨
     (roleOf (ConnectionManager.shouldOfferFor "200" "100") = Role.Answerer ∧
      roleOf (ConnectionManager.shouldOfferFor "100" "200") = Role.Offerer)) :=
  ⟨by decide, claim_C2 "100" "200" (by decide)⟩

theorem addRemoteStep_buffering (s : PeerConnectorState) (c : Candidate)
    (h : s.remoteDescription = none) :
    PeerConnector.addRemoteStep s c =
      { s with remoteCandidates := s.remoteCandidates ++ [c] } := by
  simp [PeerConnector.addRemoteStep, PeerConnector.addIceCandidate, h]

theorem AddRemoteCandidates_buffering (cs : List Candidate) (s : PeerConnectorState)
    (h : s.remoteDescription = none) :
    PeerConnector.AddRemoteCandidates s cs =
      { s with remoteCandidates := s.remoteCandidates ++ cs } := by
  induction cs generalizing s with
  | nil => simp [PeerConnector.AddRemoteCandidates]
  | cons c cs ih =>
    calc PeerConnector.AddRemoteCandidates s (c :: cs)
        = PeerConnector.AddRemoteCandidates (PeerConnector.addRemoteStep s c) cs := rfl
      _ = PeerConnector.AddRemoteCandidates
            { s with remoteCandidates := s.remoteCandidates ++ [c] } cs := by
            rw [addRemoteStep_buffering s c h]
      _ = { s with remoteCandidates := s.remoteCandidates ++ (c :: cs) } := by
            rw [ih _ (by simp [h])]
            simp

theorem foldl_applyOrDrop (cs : List Candidate) (s : PeerConnectorState)
    (h : s.remoteDescription.isSome) :
    cs.foldl PeerConnector.applyOrDrop s =
      { s with appliedRemoteCandidates := s.appliedRemoteCandidates ++ cs } := by
  induction cs generalizing s with
  | nil => simp
  | cons c cs ih =>
    have hstep : PeerConnector.applyOrDrop s c =
        { s with appliedRemoteCandidates := s.appliedRemoteCandidates ++ [c] } := by
      simp [PeerConnector.applyOrDrop, PeerConnector.addIceCandidate, h]
    calc (c :: cs).foldl PeerConnector.applyOrDrop s
        = cs.foldl PeerConnector.applyOrDrop (PeerConnector.applyOrDrop s c) := rfl
      _ = cs.foldl PeerConnector.applyOrDrop
            { s with appliedRemoteCandidates := s.appliedRemoteCandidates ++ [c] } := by
            rw [hstep]
      _ = { s with appliedRemoteCandidates := s.appliedRemoteCandidates ++ (c :: cs) } := by
            rw [ih _ (by simp [Option.isSome] at h ⊢; exact h)]
            simp

/-- Claim C4: candidates added while no remote description is applied are
appended to the remote candidate buffer in receipt order (the operation
is total, so no exception reaches the caller, and nothing is applied to
the capability yet); when AcceptOffer applies a remote description, every
buffered candidate is applied in that receipt order and the buffer is
empty immediately afterwards. -/
theorem claim_C4 (s : PeerConnectorState) (cs : List Candidate)
    (offer answer : Description) (h : s.remoteDescription = none) :
    PeerConnector.AddRemoteCandidates s cs =
      { s with remoteCandidates := s.remoteCandidates ++ cs } ∧
    (PeerConnector.AcceptOffer (PeerConnector.AddRemoteCandidates s cs)
        offer answer).1.appliedRemoteCandidates =
      s.appliedRemoteCandidates ++ (s.remoteCandidates ++ cs) ∧
    (PeerConnector.AcceptOffer (PeerConnector.AddRemoteCandidates s cs)
        offer answer).1.remoteCandidates = [] := by
  have hadd := AddRemoteCandidates_buffering cs s h
  refine ⟨hadd, ?_, ?_⟩
  · rw [hadd]
    simp [PeerConnector.AcceptOffer, foldl_applyOrDrop]
  · rw [hadd]
    simp [PeerConnector.AcceptOffer]

theorem claim_C4_witness :
    (PeerConnector.new true).remoteDescription = none ∧
    PeerConnector.AddRemoteCandidates (PeerConnector.new true) ["c1", "c2"] =
      { PeerConnector.new true with remoteCandidates := ["c1", "c2"] } ∧
    (PeerConnector.AcceptOffer
        (PeerConnector.AddRemoteCandidates (PeerConnector.new true) ["c1", "c2"])
        "o" "a").1.appliedRemoteCandidates = ["c1", "c2"] ∧
    (PeerConnector.AcceptOffer
        (PeerConnector.AddRemoteCandidates (PeerConnector.new true) ["c1", "c2"])
        "o" "a").1.remoteCandidates = [] := by
  have h := claim_C4 (PeerConnector.new true) ["c1", "c2"] "o" "a" rfl
  exact ⟨rfl, by simpa [PeerConnector.new] using h.1,
    by simpa [PeerConnector.new] using h.2.1, h.2.2⟩

/-- Claim C7: StartLocalStream first detaches every previously attached
outbound track (StopLocalStream, which is the identity when none is
attached, so repeated calls are safe), and afterwards the attached
outbound track set is exactly the tracks of the new stream. -/
theorem claim_C7 (s : PeerConnectorState) (stream : List Track) :
    PeerConnector.attachedTracks (PeerConnector.StopLocalStream s) = [] ∧
    (PeerConnector.attachedTracks s = [] → PeerConnector.StopLocalStream s = s) ∧
    PeerConnector.attachedTracks (PeerConnector.StartLocalStream s stream) = stream := by
  refine ⟨?_, ?_, ?_⟩
  · simp [PeerConnector.attachedTracks, PeerConnector.StopLocalStream,
      List.filterMap_map]
  · intro h
    have hall : ∀ x ∈ s.rtpSenders, x = none := by
      intro x hx
      have := List.filterMap_eq_nil_iff.mp h x hx
      simpa using this
    have hmap : ∀ l : List (Option Track), (∀ x ∈ l, x = none) →
        l.map (fun _ => (none : Option Track)) = l := by
      intro l
      induction l with
      | nil => intro _; rfl
      | cons y ys ih =>
        intro hl
        have hy := hl y (List.mem_cons_self y ys)
        simp only [List.map_cons, hy, List.cons.injEq, true_and]
        exact ih (fun x hx => hl x (List.mem_cons_of_mem y hx))
    simp [PeerConnector.StopLocalStream, hmap s.rtpSenders hall]
  · simp [PeerConnector.attachedTracks, PeerConnector.StartLocalStream,
      PeerConnector.StopLocalStream, List.filterMap_append, List.filterMap_map]

theorem claim_C7_witness :
    PeerConnector.StopLocalStream (PeerConnector.new true) = PeerConnector.new true :=
  (claim_C7 (PeerConnector.new true) []).2.1 rfl

theorem lookupConnector_append_self (k : String) (c : PeerConnectorState)
    (l : List (String × PeerConnectorState))
    (h : ConnectionManager.lookupConnector k l = none) :
    ConnectionManager.lookupConnector k (l ++ [(k, c)]) = some c := by
  induction l with
  | nil => simp [ConnectionManager.lookupConnector]
  | cons p rest ih =>
    by_cases hp : p.1 = k
    · simp [ConnectionManager.lookupConnector, hp] at h
    · simp only [ConnectionManager.lookupConnector, hp, if_false, List.cons_append] at h ⊢
      exact ih h

theorem roleOf_shouldOfferFor (fromId attendeeId : String) :
    roleOf (ConnectionManager.shouldOfferFor fromId attendeeId) =
      (if ConnectionManager.identLt fromId attendeeId
       then Role.Offerer else Role.Answerer) := by
  by_cases h : ConnectionManager.identLt fromId attendeeId <;>
    simp [roleOf, ConnectionManager.shouldOfferFor, h]

theorem StartLocalStream_shouldOffer (s : PeerConnectorState) (stream : List Track) :
    (PeerConnector.StartLocalStream s stream).shouldOffer = s.shouldOffer := by
  simp [PeerConnector.StartLocalStream, PeerConnector.StopLocalStream]

/-- Claim C1 as stated is false on the code: on local id "200", the
connector created for remote id "100" has Role Offerer, not Answerer —
`shouldOffer` is set to `fromId < AttendeeId`, so a remote id that
precedes the local id makes the local connector the offering side. -/
theorem claim_C1_counterexample :
    ((ConnectionManager.lookupConnector "100"
        (ConnectionManager.OnMessage ⟨"200", []⟩ ⟨"room", "100", "discover", Payload.empty⟩
          "ans" []).1.connectors).map
      (fun c => roleOf c.shouldOffer)) ≠ some Role.Answerer := by
  decide

/-- Claim C1 (amended): for every inbound envelope from a
previously-unseen remote identity, the role assigned to the new
connector is Offerer exactly when the remote identity precedes the local
AttendeeId in the string identity order, and Answerer otherwise; in the
spec scenario (local "200", envelope from "100" of type discover) the
connector created for "100" has Role Offerer, and the manager replies
with an acknowledge envelope addressed to "100". -/
theorem claim_C1_amended (m : ConnectionManagerState) (fromId : String)
    (stream : List Track)
    (habs : ConnectionManager.lookupConnector fromId m.connectors = none) :
    ((ConnectionManager.lookupConnector fromId
        (ConnectionManager.CreateConnector m fromId stream).connectors).map
      (fun c => roleOf c.shouldOffer)) =
      some (if ConnectionManager.identLt fromId m.AttendeeId
            then Role.Offerer else Role.Answerer) ∧
    (ConnectionManager.OnMessage ⟨"200", []⟩ ⟨"room", "100", "discover", Payload.empty⟩
        "ans" []).2 = [ManagerEffect.Send Payload.empty "acknowledge" "100"] ∧
    ((ConnectionManager.lookupConnector "100"
        (ConnectionManager.OnMessage ⟨"200", []⟩ ⟨"room", "100", "discover", Payload.empty⟩
          "ans" []).1.connectors).map
      (fun c => roleOf c.shouldOffer)) = some Role.Offerer := by
  refine ⟨?_, by decide, by decide⟩
  have hcreate : ConnectionManager.CreateConnector m fromId stream =
      { m with connectors := m.connectors ++
          [(fromId, PeerConnector.StartLocalStream
              (PeerConnector.new (ConnectionManager.shouldOfferFor fromId m.AttendeeId))
              stream)] } := by
    simp [ConnectionManager.CreateConnector, habs]
  rw [hcreate]
  rw [lookupConnector_append_self _ _ _ habs]
  simp [StartLocalStream_shouldOffer, PeerConnector.new, roleOf_shouldOfferFor]

theorem claim_C1_witness :
    ((ConnectionManager.lookupConnector "100"
        (ConnectionManager.CreateConnector ⟨"200", []⟩ "100" []).connectors).map
      (fun c => roleOf c.shouldOffer)) =
      some (if ConnectionManager.identLt "100" "200"
            then Role.Offerer else Role.Answerer) :=
  (claim_C1_amended ⟨"200", []⟩ "100" [] rfl).1

theorem lookupConnector_delete (k : String)
    (l : List (String × PeerConnectorState)) :
    ConnectionManager.lookupConnector k (ConnectionManager.deleteConnector k l) = none := by
  induction l with
  | nil => rfl
  | cons p rest ih =>
    by_cases hp : p.1 = k
    · simpa [ConnectionManager.deleteConnector, List.filter_cons, hp] using ih
    · simpa [ConnectionManager.deleteConnector, List.filter_cons, hp,
        ConnectionManager.lookupConnector] using ih

/-- Claim C3 as stated is false on the code: a connection-state change
reporting "failed" on the Ice dimension — not the Overall (RTC)
dimension — also triggers teardown and removes the connector from the
registry. -/
theorem claim_C3_counterexample :
    (ConnectionManager.handleConnectionChange ⟨"me", [("100", PeerConnector.new true)]⟩
        "100" ⟨ConnectionChangeType.Ice, "failed"⟩).1.connectors = [] ∧
    ConnectionChangeType.Ice ≠ ConnectionChangeType.RTC := by
  decide

/-- Claim C3 (amended): when a registered connector reports a
connection-state change whose state label is "failed" — on any of the
three dimensions, not only Overall — the manager forwards the change as
OnConnectionChanged, shuts the connector down and removes its registry
entry (no separate OnClientDisconnect notification exists); a change
whose state is not "failed" is forwarded and triggers no teardown. -/
theorem claim_C3_amended (m : ConnectionManagerState) (fromId : String)
    (change : ConnectionChange) :
    (change.State = "failed" →
      ConnectionManager.handleConnectionChange m fromId change =
        ({ m with connectors := ConnectionManager.deleteConnector fromId m.connectors },
         [ManagerEffect.NotifyConnectionChanged fromId change,
          ManagerEffect.ShutdownConnector fromId]) ∧
      ConnectionManager.lookupConnector fromId
        (ConnectionManager.handleConnectionChange m fromId change).1.connectors = none) ∧
    (change.State ≠ "failed" →
      ConnectionManager.handleConnectionChange m fromId change =
        (m, [ManagerEffect.NotifyConnectionChanged fromId change])) := by
  constructor
  · intro h
    constructor
    · simp [ConnectionManager.handleConnectionChange, h]
    · simp [ConnectionManager.handleConnectionChange, h, lookupConnector_delete]
  · intro h
    simp [ConnectionManager.handleConnectionChange, h]

theorem claim_C3_witness :
    ConnectionManager.lookupConnector "100"
      (ConnectionManager.handleConnectionChange ⟨"me", [("100", PeerConnector.new true)]⟩
        "100" ⟨ConnectionChangeType.Ice, "failed"⟩).1.connectors = none :=
  ((claim_C3_amended ⟨"me", [("100", PeerConnector.new true)]⟩ "100"
      ⟨ConnectionChangeType.Ice, "failed"⟩).1 rfl).2

theorem refreshConnectors_ok (stream : List Track)
    (cs : List (String × PeerConnectorState))
    (h : ∀ p ∈ cs, p.2.closed = false) :
    ConnectionManager.refreshConnectors stream cs =
      (cs.map Prod.fst,
       Except.ok (cs.map (fun p => (p.1, PeerConnector.StartLocalStream p.2 stream)))) := by
  induction cs with
  | nil => rfl
  | cons p rest ih =>
    obtain ⟨clientId, c⟩ := p
    have hc : c.closed = false := h (clientId, c) (List.mem_cons_self _ _)
    have hr := ih (fun q hq => h q (List.mem_cons_of_mem _ hq))
    simp [ConnectionManager.refreshConnectors, PeerConnector.StartLocalStreamE, hc, hr,
      Except.map]

theorem refreshConnectors_abort (stream : List Track)
    (pre : List (String × PeerConnectorState)) (clientId : String)
    (c : PeerConnectorState) (post : List (String × PeerConnectorState))
    (hpre : ∀ p ∈ pre, p.2.closed = false) (hc : c.closed = true)
    (hne : c.rtpSenders ≠ [] ∨ stream ≠ []) :
    ConnectionManager.refreshConnectors stream (pre ++ (clientId, c) :: post) =
      (pre.map Prod.fst ++ [clientId], Except.error ()) := by
  have hcond : c.rtpSenders.isEmpty = false ∨ stream.isEmpty = false := by
    rcases hne with h | h
    · exact Or.inl (by simpa [List.isEmpty_iff] using h)
    · exact Or.inr (by simpa [List.isEmpty_iff] using h)
  induction pre with
  | nil =>
    rcases hcond with h | h <;>
      simp [ConnectionManager.refreshConnectors, PeerConnector.StartLocalStreamE, hc, h]
  | cons p rest ih =>
    obtain ⟨id2, c2⟩ := p
    have hc2 : c2.closed = false := hpre (id2, c2) (List.mem_cons_self _ _)
    have hr := ih (fun q hq => hpre q (List.mem_cons_of_mem _ hq))
    simp [ConnectionManager.refreshConnectors, PeerConnector.StartLocalStreamE, hc2, hr,
      Except.map]

/-- Claim C8 as stated is false on the code: with two registered
connections of which the first throws when its stream is replaced —
here it was shut down, so the addTrack call for the new stream's track
"t" raises InvalidStateError — the refresh loop, which has no
per-connection exception handling, aborts, and StartLocalStream is
never attempted on the second connection ("b" is registered but absent
from the attempted list). -/
theorem claim_C8_counterexample :
    (ConnectionManager.RefreshLocalStream
        ⟨"me", [("a", PeerConnector.Shutdown (PeerConnector.new true)),
                ("b", PeerConnector.new false)]⟩ ["t"]).1 = ["a"] ∧
    ((⟨"me", [("a", PeerConnector.Shutdown (PeerConnector.new true)),
              ("b", PeerConnector.new false)]⟩ : ConnectionManagerState).connectors.map
      Prod.fst) = ["a", "b"] := by
  decide

/-- Claim C8 (amended): RefreshLocalStream invokes StartLocalStream with
the current local stream on every registered connection in registry
order (N calls for N connections) and is a no-op when the registry is
empty, provided every update succeeds; but when updating one connection
does fail (its connection is closed and the update actually performs a
removeTrack or addTrack call), the exception propagates out of the loop
and prevents the update attempts on the remaining connections. -/
theorem claim_C8_amended (m : ConnectionManagerState) (stream : List Track) :
    (m.connectors = [] →
      ConnectionManager.RefreshLocalStream m stream = ([], Except.ok m)) ∧
    ((∀ p ∈ m.connectors, p.2.closed = false) →
      ConnectionManager.RefreshLocalStream m stream =
        (m.connectors.map Prod.fst,
         Except.ok { m with
           connectors := m.connectors.map
             (fun p => (p.1, PeerConnector.StartLocalStream p.2 stream)) })) ∧
    (∀ pre clientId c post, m.connectors = pre ++ (clientId, c) :: post →
      (∀ p ∈ pre, p.2.closed = false) → c.closed = true →
      (c.rtpSenders ≠ [] ∨ stream ≠ []) →
      ConnectionManager.RefreshLocalStream m stream =
        (pre.map Prod.fst ++ [clientId], Except.error ())) := by
  refine ⟨?_, ?_, ?_⟩
  · intro h
    obtain ⟨aid, conns⟩ := m
    simp only at h
    subst h
    rfl
  · intro h
    simp [ConnectionManager.RefreshLocalStream, refreshConnectors_ok stream m.connectors h,
      Except.map]
  · intro pre clientId c post heq hpre hc hne
    simp [ConnectionManager.RefreshLocalStream, heq,
      refreshConnectors_abort stream pre clientId c post hpre hc hne, Except.map]

theorem claim_C8_witness :
    ConnectionManager.RefreshLocalStream ⟨"me", [("a", PeerConnector.new true)]⟩ ["t"] =
      (["a"], Except.ok ⟨"me",
        [("a", PeerConnector.StartLocalStream (PeerConnector.new true) ["t"])]⟩) := by
  have h := (claim_C8_amended ⟨"me", [("a", PeerConnector.new true)]⟩ ["t"]).2.1 (by
    intro p hp
    simp only [List.mem_singleton] at hp
    subst hp
    rfl)
  simpa using h
